import Mathlib

/-!
Verification of the quiz-trainer web application (src/app.py) against its
natural-language specification.  The Python code is shallowly embedded:
strings are lists of characters, JSON values are an inductive type, Python
dictionaries are insertion-ordered association lists, the Flask session and
the cookie-backed storage are explicit records, and the nondeterministic
parts (random.shuffle, the external AI grading call, json.loads of the AI
reply) are passed in as explicit parameters.  Python float expressions of
the form int(x) over non-negative quotients are modelled by natural-number
division (exact floor of the quotient).
-/

namespace Denken

/-! ### Python string primitives -/

/-- Characters stripped by Python's str.strip(): space, tab, newline,
carriage return, vertical tab, form feed. -/
def isPyWs (c : Char) : Bool :=
  c == ' ' || c == '\t' || c == '\n' || c == '\r' || c == Char.ofNat 11 || c == Char.ofNat 12

/-- Python s.strip(): drop leading and trailing whitespace. -/
def pyStrip (s : List Char) : List Char :=
  (s.dropWhile isPyWs).rdropWhile isPyWs

/-- Python s.replace('\r','').replace('\n',''): delete all line-break characters. -/
def removeBreaks (s : List Char) : List Char :=
  (s.filter (fun c => c != '\r')).filter (fun c => c != '\n')

/-- The normalization used both when loading CSV cells (app.py line 95) and when
comparing answers (lines 395-396): str(x).strip().replace('\r','').replace('\n',''). -/
def pyClean (s : List Char) : List Char := removeBreaks (pyStrip s)

/-- Decimal rendering of a natural number (Python f-string interpolation). -/
def natStr (n : Nat) : List Char := (Nat.repr n).toList

/-! ### JSON values and Python dicts -/

/-- JSON values, as produced by json.loads / consumed by json.dumps. -/
inductive Json where
  | null : Json
  | bool : Bool → Json
  | num : Int → Json
  | str : List Char → Json
  | arr : List Json → Json
  | obj : List (List Char × Json) → Json

/-- Python dict lookup d.get(k) on an insertion-ordered association list. -/
def dictGet (k : List Char) : List (List Char × Json) → Option Json
  | [] => none
  | (k', v) :: rest => if k' = k then some v else dictGet k rest

/-- Python dict assignment d[k] = v: overwrite in place if the key exists,
otherwise append at the end. -/
def dictSet (k : List Char) (v : Json) : List (List Char × Json) → List (List Char × Json)
  | [] => [(k, v)]
  | (k', v') :: rest => if k' = k then (k, v) :: rest else (k', v') :: dictSet k v rest

/-- Python truthiness of a JSON value (`if x:`). -/
def jsonTruthy : Json → Bool
  | Json.null => false
  | Json.bool b => b
  | Json.num n => decide (n ≠ 0)
  | Json.str s => decide (s ≠ [])
  | Json.arr [] => false
  | Json.arr (_ :: _) => true
  | Json.obj [] => false
  | Json.obj (_ :: _) => true

/-- Python equality j == s between a JSON value and a string: true exactly when
j is that string. -/
def jsonIsStr (j : Json) (s : List Char) : Bool :=
  match j with
  | Json.str t => decide (t = s)
  | _ => false

/-! ### get_storage: the cookie decoder (app.py lines 24-53) -/

/-- The empty default store: {"wrong_list": [], "logs": []}. -/
def defaultStorage : List (List Char × Json) :=
  [("wrong_list".toList, Json.arr []), ("logs".toList, Json.arr [])]

/-- isinstance(v, list) on an optional dict entry (also false when missing). -/
def isListVal : Option Json → Bool
  | some (Json.arr _) => true
  | _ => false

/-- One self-healing step: if the key is absent or its value is not a list,
assign an empty list to it (app.py lines 44-47). -/
def healKey (k : List Char) (d : List (List Char × Json)) : List (List Char × Json) :=
  if isListVal (dictGet k d) then d else dictSet k (Json.arr []) d

/-- Truncate the logs entry to its last 100 elements when it holds more
(app.py lines 50-51). -/
def capLogs (d : List (List Char × Json)) : List (List Char × Json) :=
  match dictGet "logs".toList d with
  | some (Json.arr xs) =>
    if xs.length > 100 then dictSet "logs".toList (Json.arr (xs.rtake 100)) d else d
  | _ => d

/-- get_storage(request): the cookie value is modelled as
none (cookie absent), some none (present but json.loads raises), or
some (some j) (parses to the JSON value j).  Total by construction: every
failure path yields the healed default, never an exception. -/
def get_storage (raw : Option (Option Json)) : List (List Char × Json) :=
  let storage :=
    match raw with
    | none => defaultStorage
    | some none => defaultStorage
    | some (some j) =>
      match j with
      | Json.obj fields => fields
      | _ => defaultStorage
  capLogs (healKey "logs".toList (healKey "wrong_list".toList storage))

/-- The wrong_list field of a healed storage dict, as a list. -/
def getWrongList (d : List (List Char × Json)) : List Json :=
  match dictGet "wrong_list".toList d with
  | some (Json.arr xs) => xs
  | _ => []

/-- The logs field of a healed storage dict, as a list. -/
def getLogs (d : List (List Char × Json)) : List Json :=
  match dictGet "logs".toList d with
  | some (Json.arr xs) => xs
  | _ => []

/-! ### Essay evaluators (app.py lines 128-220) -/

/-- set(s.lower()): the set of distinct characters of the lower-cased string. -/
def charSet (s : List Char) : Finset Char := (s.map Char.toLower).toFinset

/-- evaluate_essay_simple(user_answer, model_answer, min_length=20): the
heuristic essay grader (app.py lines 189-220).  int(similarity * 100) over the
non-negative quotient is modelled as the floor 100 * shared / total in Nat. -/
def evaluate_essay_simple (user_answer model_answer : List Char)
    (min_length : Nat := 20) : Json :=
  if user_answer = [] ∨ (pyStrip user_answer).length < min_length then
    Json.obj [("score".toList, Json.num 0),
              ("is_correct".toList, Json.bool false),
              ("feedback".toList, Json.str ("回答が短すぎます。最低".toList ++ natStr min_length
                 ++ "文字以上で記述してください。".toList)),
              ("strengths".toList, Json.arr []),
              ("improvements".toList, Json.arr [Json.str "より詳しい説明が必要です".toList])]
  else
    let user_set := charSet user_answer
    let model_set := charSet model_answer
    let score : Nat :=
      if model_set.card = 0 then 0 else (100 * (user_set ∩ model_set).card) / model_set.card
    Json.obj [("score".toList, Json.num score),
              ("is_correct".toList, Json.bool (decide (score ≥ 60))),
              ("feedback".toList, Json.str ("文字数: ".toList ++ natStr user_answer.length
                 ++ "字。模範解答との類似度: ".toList ++ natStr score
                 ++ "点。AI採点を有効にするとより詳細な評価が得られます。".toList)),
              ("strengths".toList,
                if user_answer.length ≥ min_length then Json.arr [Json.str "回答を記述しました".toList]
                else Json.arr []),
              ("improvements".toList,
                if score < 70 then Json.arr [Json.str "より詳しい説明を心がけましょう".toList]
                else Json.arr [])]

/-- Split s at the first occurrence of sep: the text before it and the text
after it, or none when sep does not occur. -/
def firstSplit (sep : List Char) : List Char → Option (List Char × List Char)
  | [] => none
  | c :: rest =>
    if (c :: rest).take sep.length = sep then some ([], (c :: rest).drop sep.length)
    else
      match firstSplit sep rest with
      | some (p, suf) => some (c :: p, suf)
      | none => none

/-- Python sep in s. -/
def containsSub (sep s : List Char) : Bool := (firstSplit sep s).isSome

/-- Python s.split(sep)[0]: the text before the first occurrence of sep
(the whole string when sep is absent). -/
def beforeFirst (sep s : List Char) : List Char :=
  match firstSplit sep s with
  | some (p, _) => p
  | none => s

/-- Python s.split(sep)[1]: the text between the first and second occurrences
of sep (running to the end when there is no second occurrence); none when sep
does not occur at all. -/
def betweenFirstSecond (sep s : List Char) : Option (List Char) :=
  match firstSplit sep s with
  | some (_, suf) => some (beforeFirst sep suf)
  | none => none

/-- The fenced-code-block unwrapping applied to the AI reply before json.loads
(app.py lines 176-179). -/
def extractFenced (t : List Char) : List Char :=
  if containsSub "```json".toList t then
    beforeFirst "```".toList ((betweenFirstSecond "```json".toList t).getD t)
  else if containsSub "```".toList t then
    beforeFirst "```".toList ((betweenFirstSecond "```".toList t).getD t)
  else t

/-- evaluate_essay_with_ai (app.py lines 128-187).  useAI models USE_AI_GRADING;
call models the whole transport step (Anthropic client call and text
extraction), with Except.error standing for any raised exception; parse models
json.loads, with none standing for a parse failure.  Every failure path falls
back to the heuristic grader; a successfully parsed JSON value is returned
as-is. -/
def evaluate_essay_with_ai (useAI : Bool) (call : Except Unit (List Char))
    (parse : List Char → Option Json)
    (question model_answer user_answer note : List Char) : Json :=
  if useAI = false then evaluate_essay_simple user_answer model_answer
  else
    match call with
    | Except.error _ => evaluate_essay_simple user_answer model_answer
    | Except.ok result_text =>
      match parse (pyStrip (extractFenced result_text)) with
      | none => evaluate_essay_simple user_answer model_answer
      | some j => j

/-! ### Session data model -/

/-- One loaded question record (load_csv_data, app.py lines 113-121). -/
structure Card where
  id : List Char
  category : List Char
  front : List Char
  back : List Char
  note : List Char
  dummies : List (List Char)
  keywords : List (List Char)

/-- Question format, decoded from the first character of the id
(app.py lines 390-392): 'o' is ox, 'e' is essay, anything else is fill. -/
inductive Mode where
  | fill : Mode
  | ox : Mode
  | essay : Mode
deriving DecidableEq

/-- mode_map.get(card['id'][0], 'fill'). -/
def modeOf (card : Card) : Mode :=
  match card.id with
  | 'o' :: _ => Mode.ox
  | 'e' :: _ => Mode.essay
  | _ => Mode.fill

/-- session['last_result'] (app.py lines 444-452). -/
structure LastResult where
  card : Card
  is_correct : Json
  correct_answer : List Char
  current : Nat
  progress : Nat
  user_answer : List Char
  ai_feedback : Option Json

/-- The Flask session fields used by the quiz machine. -/
structure Sess where
  quiz_queue : List Card
  total_in_session : Nat
  correct_count : Nat
  combo : Nat
  is_review_mode : Bool
  last_result : Option LastResult

/-- The healed cookie store as consumed by answer(): its two list fields. -/
structure Storage where
  wrong_list : List Json
  logs : List Json

/-- Python card_id in storage['wrong_list'] (string membership in a JSON list). -/
def inWrongList (wl : List Json) (card_id : List Char) : Bool :=
  wl.any (fun j => jsonIsStr j card_id)

/-! ### The answer() route (app.py lines 379-459) -/

/-- The exact-match verdict for fill and ox questions (app.py lines 394-411):
literal equality of the two strings after strip() and line-break removal. -/
def exact_match (submitted canonical : List Char) : Bool :=
  decide (pyClean submitted = pyClean canonical)

/-- The verdict computation of answer() (lines 398-411): for essay cards the
AI/heuristic evaluation (whose is_correct field is read, raising KeyError --
modelled as none -- when the returned JSON value is not an object with that
key); for other cards the exact string match.  Returns the raw is_correct
value and the ai_feedback. -/
def computeVerdict (useAI : Bool) (call : Except Unit (List Char))
    (parse : List Char → Option Json) (card : Card) (user_answer : List Char) :
    Option (Json × Option Json) :=
  match modeOf card with
  | Mode.essay =>
    let evaluation := evaluate_essay_with_ai useAI call parse card.front card.back
      user_answer card.note
    match evaluation with
    | Json.obj fs =>
      match dictGet "is_correct".toList fs with
      | some v => some (v, some evaluation)
      | none => none
    | _ => none
  | _ => some (Json.bool (exact_match user_answer card.back), none)

/-- The state update of answer() after the verdict is known (lines 413-453):
counters, wrong_list bookkeeping keyed by the path parameter card_id, the
capped log append, queue pop and last_result. -/
def applyAnswer (card : Card) (rest : List Card) (card_id user_answer correct_answer
    date : List Char) (is_correct : Json) (ai_feedback : Option Json)
    (sess : Sess) (storage : Storage) : Sess × Storage :=
  let correct := jsonTruthy is_correct
  let storage1 :=
    if correct then
      if sess.is_review_mode && inWrongList storage.wrong_list card_id then
        { storage with wrong_list := storage.wrong_list.filter (fun j => !(jsonIsStr j card_id)) }
      else storage
    else
      if inWrongList storage.wrong_list card_id then storage
      else { storage with wrong_list := storage.wrong_list ++ [Json.str card_id] }
  let logEntry := Json.obj [("date".toList, Json.str date),
                            ("cat".toList, Json.str card.category),
                            ("correct".toList, is_correct)]
  let storage2 := { storage1 with logs := (storage1.logs ++ [logEntry]).rtake 100 }
  let idx := sess.total_in_session - rest.length
  let progress := (idx * 100) / sess.total_in_session
  let sess' : Sess :=
    { sess with
      quiz_queue := rest
      correct_count := if correct then sess.correct_count + 1 else sess.correct_count
      combo := if correct then sess.combo + 1 else 0
      last_result := some { card := card, is_correct := is_correct,
                            correct_answer := correct_answer, current := idx,
                            progress := progress, user_answer := user_answer,
                            ai_feedback := ai_feedback } }
  (sess', storage2)

/-- The answer(card_id) route handler (app.py lines 379-459).  none models a
request that leaves session and storage unwritten: an empty quiz queue
(redirect to index) or the KeyError raised on a malformed AI verdict before
any state is mutated.  The verdict is computed from the card at the head of
the queue; card_id is the path parameter. -/
def answer (useAI : Bool) (call : Except Unit (List Char))
    (parse : List Char → Option Json) (card_id raw_user date : List Char)
    (sess : Sess) (storage : Storage) : Option (Sess × Storage) :=
  match sess.quiz_queue with
  | [] => none
  | card :: rest =>
    (computeVerdict useAI call parse card (pyClean raw_user)).map
      (fun p => applyAnswer card rest card_id (pyClean raw_user) (pyClean card.back) date
        p.1 p.2 sess storage)

/-! ### start_study, study choices and show_result -/

/-- start_study (app.py lines 261-306): all_q is the loaded-and-filtered pool,
shuffled the result of random.shuffle on it (passed explicitly; a theorem
constrains it to a permutation).  Returns none (redirect to index, no session)
when the pool is empty, otherwise the fresh session. -/
def start_study (all_q shuffled : List Card) (q_count : Nat) (is_review : Bool) :
    Option Sess :=
  if all_q.isEmpty then none
  else
    some { quiz_queue := shuffled.take q_count
           total_in_session := (shuffled.take q_count).length
           correct_count := 0
           combo := 0
           is_review_mode := is_review
           last_result := none }

/-- The synthetic placeholder choice f"選択肢_\x7bn\x7d" (app.py line 360). -/
def placeholder (n : Nat) : List Char := "選択肢_".toList ++ natStr n

/-- The while-loop padding choices up to 4 entries (app.py lines 359-360),
with explicit fuel: from at least one entry, four steps always reach the
exit condition. -/
def padChoices : Nat → List (List Char) → List (List Char)
  | 0, cs => cs
  | fuel + 1, cs => if cs.length < 4 then padChoices fuel (cs ++ [placeholder cs.length]) else cs

/-- Choice-set construction for a fill question before shuffling
(app.py lines 354-360): stripped canonical answer, stripped dummies, then
placeholder padding. -/
def buildChoices (back : List Char) (dummies : List (List Char)) : List (List Char) :=
  padChoices 4 ([pyStrip back] ++ dummies.map pyStrip)

/-- The dummy extraction of load_csv_data (app.py lines 101-106): columns 4..6
of the cleaned row, excluding empty strings and values equal to the canonical
answer (column 2). -/
def load_dummies (cleaned_row : List (List Char)) : List (List Char) :=
  let raw := if cleaned_row.length ≥ 5 then (cleaned_row.drop 4).take 3 else []
  raw.filter (fun d => decide (d ≠ []) && decide (d ≠ cleaned_row.getD 2 []))

/-- show_result (app.py lines 468-474): int((c/t)*100) if t > 0 else 0,
modelled as the floor c*100/t in Nat. -/
def show_result_score (correct_count total : Nat) : Nat :=
  if total > 0 then correct_count * 100 / total else 0

/-! ### Spec-side definitions for refinement comparisons -/

/-- The spec's exact-match normalization, stated in its own order: first delete
line-break characters everywhere, then trim surrounding whitespace.  Compared
against the code's pyClean (which trims first). -/
def spec_normalize (s : List Char) : List Char := pyStrip (removeBreaks s)

/-- The spec's scoring formula round(ratio * 100), over exact rationals. -/
def spec_round_percent (num den : Nat) : ℤ := round ((num : ℚ) / (den : ℚ) * 100)

/-- The membership test for the three fields the spec requires of every
essay-grading verdict. -/
def hasVerdictFields (j : Json) : Bool :=
  match j with
  | Json.obj fs =>
    (dictGet "is_correct".toList fs).isSome && (dictGet "score".toList fs).isSome
      && (dictGet "feedback".toList fs).isSome
  | _ => false

/-- The capped log append performed by each answer() write
(lines 429-436): push one entry, keep the last 100. -/
def appendLogCap (logs : List Json) (e : Json) : List Json := (logs ++ [e]).rtake 100

/-- The field access evaluation['k'] on a JSON object (none models the
KeyError / TypeError raised for a missing key or non-object). -/
def getField (j : Json) (k : List Char) : Option Json :=
  match j with
  | Json.obj fs => dictGet k fs
  | _ => none

/-- A concrete fill-format card for witnesses. -/
def sampleCard : Card :=
  { id := "f_x_0".toList, category := "理論".toList, front := "Q".toList,
    back := "A".toList, note := "n".toList, dummies := [], keywords := [] }

/-- The session used for the C1 counterexample: one fill question, normal
(non-review) study mode. -/
def sessC1 : Sess :=
  { quiz_queue := [sampleCard], total_in_session := 1, correct_count := 0,
    combo := 0, is_review_mode := false, last_result := none }

/-- The store used for the C1 counterexample: the question's id is already on
the missed list. -/
def storageC1 : Storage :=
  { wrong_list := [Json.str "f_x_0".toList], logs := [] }

/-- The session and store used for the C1 and C10 witnesses: one fill question,
normal mode, empty missed list. -/
def sessW : Sess :=
  { quiz_queue := [sampleCard], total_in_session := 1, correct_count := 0,
    combo := 0, is_review_mode := false, last_result := none }

/-- An empty store for witnesses. -/
def storageW : Storage := { wrong_list := [], logs := [] }

/-- The score expression of the long-submission branch of
evaluate_essay_simple: 0 when the canonical answer has no distinct characters,
otherwise the floor of 100 times the shared-distinct-character ratio. -/
def simple_score (u m : List Char) : Nat :=
  if (charSet m).card = 0 then 0
  else 100 * ((charSet u ∩ charSet m).card) / (charSet m).card

/-! ### Helper lemmas: strip / line-break-removal algebra -/

/-- The characters kept by removeBreaks. -/
def keepChar (c : Char) : Bool := (c != '\n') && (c != '\r')

theorem removeBreaks_eq_filter (s : List Char) : removeBreaks s = s.filter keepChar := by
  unfold removeBreaks keepChar
  rw [List.filter_filter]

theorem keepChar_false_ws {c : Char} (h : keepChar c = false) : isPyWs c = true := by
  unfold keepChar at h
  unfold isPyWs
  rcases Bool.and_eq_false_iff.mp h with h' | h' <;>
    simp only [bne, Bool.not_eq_false', beq_iff_eq] at h' <;> simp [h']

theorem dropWhile_filter_comm (p q : Char → Bool) (h : ∀ c, q c = false → p c = true)
    (l : List Char) : (l.filter q).dropWhile p = (l.dropWhile p).filter q := by
  induction l with
  | nil => rfl
  | cons c t ih =>
    by_cases hq : q c = true
    · by_cases hp : p c = true
      · simp [List.filter_cons, List.dropWhile_cons, hq, hp, ih]
      · simp [List.filter_cons, List.dropWhile_cons, hq, hp]
    · have hp := h c (Bool.eq_false_iff.mpr hq)
      simp [List.filter_cons, List.dropWhile_cons, hq, hp, ih]

theorem rdropWhile_filter_comm (p q : Char → Bool) (h : ∀ c, q c = false → p c = true)
    (l : List Char) : (l.filter q).rdropWhile p = (l.rdropWhile p).filter q := by
  unfold List.rdropWhile
  rw [← List.filter_reverse, dropWhile_filter_comm p q h, List.filter_reverse]

theorem pyStrip_filter_comm (q : Char → Bool) (h : ∀ c, q c = false → isPyWs c = true)
    (l : List Char) : pyStrip (l.filter q) = (pyStrip l).filter q := by
  unfold pyStrip
  rw [dropWhile_filter_comm _ q h, rdropWhile_filter_comm _ q h]

/-- Trimming first and then deleting line breaks (the code) equals deleting
line breaks first and then trimming (the spec). -/
theorem pyClean_eq_spec_normalize (s : List Char) : pyClean s = spec_normalize s := by
  unfold pyClean spec_normalize
  rw [removeBreaks_eq_filter, removeBreaks_eq_filter,
    pyStrip_filter_comm keepChar (fun c hc => keepChar_false_ws hc)]

theorem dropWhile_append_self {p : Char → Bool} {z t : List Char}
    (h : List.dropWhile p (z ++ t) = z ++ t) : List.dropWhile p z = z := by
  cases z with
  | nil => rfl
  | cons c z' =>
    rw [List.cons_append, List.dropWhile_cons] at h
    by_cases hp : p c = true
    · exfalso
      rw [if_pos hp] at h
      have hle := (List.dropWhile_sublist (l := z' ++ t) p).length_le
      rw [h] at hle
      simp at hle
    · rw [List.dropWhile_cons, if_neg hp]

theorem pyStrip_idem (s : List Char) : pyStrip (pyStrip s) = pyStrip s := by
  unfold pyStrip
  set y := s.dropWhile isPyWs with hy
  have hyy : y.dropWhile isPyWs = y := by rw [hy, List.dropWhile_idempotent]
  obtain ⟨t, ht⟩ := List.rdropWhile_prefix isPyWs y
  have hz : (y.rdropWhile isPyWs).dropWhile isPyWs = y.rdropWhile isPyWs := by
    apply dropWhile_append_self (t := t)
    rw [ht, hyy]
  rw [hz, List.rdropWhile_idempotent]

/-- The loaded CSV cells and the normalized answers are stable under a further
strip(), as applied by the study view. -/
theorem pyStrip_pyClean (s : List Char) : pyStrip (pyClean s) = pyClean s := by
  unfold pyClean
  rw [removeBreaks_eq_filter, pyStrip_filter_comm keepChar (fun c hc => keepChar_false_ws hc),
    pyStrip_idem]

/-! ### Helper lemmas: the capped log -/

theorem rtake_length_le (l : List Json) (n : Nat) : (l.rtake n).length ≤ n := by
  rw [List.rtake_eq_reverse_take_reverse, List.length_reverse, List.length_take]
  omega

theorem rtake_of_length_le {l : List Json} {n : Nat} (h : l.length ≤ n) : l.rtake n = l := by
  rw [List.rtake_eq_reverse_take_reverse, List.take_of_length_le (by simpa), List.reverse_reverse]

/-- A capped list is a suffix of the original: the kept entries are the most
recent ones. -/
theorem rtake_isSuffix (l : List Json) (n : Nat) : l.rtake n <:+ l :=
  ⟨l.rdrop n, by rw [List.rdrop, List.rtake]; exact List.take_append_drop _ l⟩

theorem rtake_append_rtake (n : Nat) (l l₂ : List Json) :
    ((l.rtake n) ++ l₂).rtake n = (l ++ l₂).rtake n := by
  rw [List.rtake_eq_reverse_take_reverse, List.rtake_eq_reverse_take_reverse,
    List.rtake_eq_reverse_take_reverse, List.reverse_append, List.reverse_append,
    List.reverse_reverse, List.take_append_eq_append_take, List.take_append_eq_append_take,
    List.take_take]
  have hmin : min (n - l₂.reverse.length) n = n - l₂.reverse.length := by omega
  rw [hmin]

theorem foldl_appendLogCap (es : List Json) : ∀ init : List Json,
    List.foldl appendLogCap (init.rtake 100) es = (init ++ es).rtake 100 := by
  induction es with
  | nil => intro init; simp
  | cons e es ih =>
    intro init
    rw [List.foldl_cons]
    have h1 : appendLogCap (init.rtake 100) e = (init ++ [e]).rtake 100 := by
      unfold appendLogCap
      rw [rtake_append_rtake]
    rw [h1, ih (init ++ [e]), List.append_assoc]
    rfl

/-! ### Helper lemmas: dict operations and the storage decoder -/

theorem dictGet_set_self (k : List Char) (v : Json) (d : List (List Char × Json)) :
    dictGet k (dictSet k v d) = some v := by
  induction d with
  | nil => simp [dictGet, dictSet]
  | cons kv rest ih =>
    obtain ⟨k', v'⟩ := kv
    unfold dictSet
    by_cases h : k' = k
    · rw [if_pos h]
      unfold dictGet
      rw [if_pos rfl]
    · rw [if_neg h]
      unfold dictGet
      rw [if_neg h]
      exact ih

theorem dictGet_set_ne {k k' : List Char} (h : k ≠ k') (v : Json)
    (d : List (List Char × Json)) : dictGet k (dictSet k' v d) = dictGet k d := by
  have h' : k' ≠ k := Ne.symm h
  induction d with
  | nil => simp [dictGet, dictSet, h']
  | cons kv rest ih =>
    obtain ⟨k₀, v₀⟩ := kv
    unfold dictSet
    by_cases h0 : k₀ = k'
    · rw [if_pos h0]
      simp [dictGet, h', h0]
    · rw [if_neg h0]
      unfold dictGet
      by_cases h1 : k₀ = k
      · rw [if_pos h1, if_pos h1]
      · rw [if_neg h1, if_neg h1]
        exact ih

theorem wrong_ne_logs : "wrong_list".toList ≠ "logs".toList := by decide

theorem isListVal_false_of_not_arr {o : Option Json} (h : ∀ xs, o ≠ some (Json.arr xs)) :
    isListVal o = false := by
  cases o with
  | none => rfl
  | some v =>
    cases v with
    | arr xs => exact absurd rfl (h xs)
    | null => rfl
    | bool b => rfl
    | num n => rfl
    | str s => rfl
    | obj fs => rfl

theorem dictGet_healKey_ne {k k' : List Char} (h : k ≠ k') (d : List (List Char × Json)) :
    dictGet k (healKey k' d) = dictGet k d := by
  unfold healKey
  split
  · rfl
  · exact dictGet_set_ne h _ d

theorem getWrongList_capLogs (d : List (List Char × Json)) :
    getWrongList (capLogs d) = getWrongList d := by
  unfold capLogs
  split
  next xs heq =>
    split
    next hlen =>
      unfold getWrongList
      rw [dictGet_set_ne wrong_ne_logs]
    next hlen => rfl
  next x heq => rfl

theorem getLogs_capLogs_le (d : List (List Char × Json)) :
    (getLogs (capLogs d)).length ≤ 100 := by
  unfold capLogs
  split
  next xs heq =>
    split
    next hlen =>
      unfold getLogs
      rw [dictGet_set_self]
      exact rtake_length_le xs 100
    next hlen =>
      unfold getLogs
      rw [heq]
      show xs.length ≤ 100
      omega
  next x heq =>
    unfold getLogs
    split
    next ys heq2 => exact (heq ys heq2).elim
    next => simp

/-! ### C2 -/

/-- C2: the storage decoder get_storage is a total function (it never raises by
construction) and self-heals every malformed input: a missing cookie, a cookie
that fails JSON parsing, a parsed JSON value that is not an object, and an
object whose wrong_list / logs entries are missing or not lists all decode so
that the malformed field reads as the empty list — in every enumerated case the
reader receives the well-formed empty default store. -/
theorem claim_C2_decode_self_heals :
    (getWrongList (get_storage none) = [] ∧ getLogs (get_storage none) = []) ∧
    (getWrongList (get_storage (some none)) = [] ∧ getLogs (get_storage (some none)) = []) ∧
    (∀ j : Json, (∀ fs, j ≠ Json.obj fs) →
      getWrongList (get_storage (some (some j))) = [] ∧
      getLogs (get_storage (some (some j))) = []) ∧
    (∀ fs, (∀ xs, dictGet "wrong_list".toList fs ≠ some (Json.arr xs)) →
      getWrongList (get_storage (some (some (Json.obj fs)))) = []) ∧
    (∀ fs, (∀ xs, dictGet "logs".toList fs ≠ some (Json.arr xs)) →
      getLogs (get_storage (some (some (Json.obj fs)))) = []) := by
  refine ⟨⟨rfl, rfl⟩, ⟨rfl, rfl⟩, ?_, ?_, ?_⟩
  · intro j hj
    cases j with
    | obj fs => exact absurd rfl (hj fs)
    | null => exact ⟨rfl, rfl⟩
    | bool b => exact ⟨rfl, rfl⟩
    | num n => exact ⟨rfl, rfl⟩
    | str s => exact ⟨rfl, rfl⟩
    | arr xs => exact ⟨rfl, rfl⟩
  · intro fs h
    show getWrongList (capLogs (healKey "logs".toList (healKey "wrong_list".toList fs))) = []
    have h1 : healKey "wrong_list".toList fs = dictSet "wrong_list".toList (Json.arr []) fs := by
      unfold healKey
      rw [isListVal_false_of_not_arr h]
      simp
    rw [getWrongList_capLogs, h1]
    unfold getWrongList
    rw [dictGet_healKey_ne wrong_ne_logs, dictGet_set_self]
  · intro fs h
    show getLogs (capLogs (healKey "logs".toList (healKey "wrong_list".toList fs))) = []
    have hL : dictGet "logs".toList (healKey "wrong_list".toList fs)
        = dictGet "logs".toList fs :=
      dictGet_healKey_ne (Ne.symm wrong_ne_logs) fs
    have hset : healKey "logs".toList (healKey "wrong_list".toList fs)
        = dictSet "logs".toList (Json.arr []) (healKey "wrong_list".toList fs) := by
      rw [healKey, hL, isListVal_false_of_not_arr h]
      simp
    rw [hset]
    unfold capLogs
    rw [dictGet_set_self]
    show getLogs (dictSet "logs".toList (Json.arr []) (healKey "wrong_list".toList fs)) = []
    unfold getLogs
    rw [dictGet_set_self]

/-- C2 witness: concrete malformed inputs — a JSON array, an object whose
wrong_list is a number, an object with no logs entry — all decode to the empty
fields. -/
theorem claim_C2_decode_self_heals_witness :
    getWrongList (get_storage (some (some (Json.arr [Json.num 3])))) = [] ∧
    getWrongList (get_storage (some (some (Json.obj [("wrong_list".toList, Json.num 5)])))) = [] ∧
    getLogs (get_storage (some (some (Json.obj [])))) = [] :=
  ⟨(claim_C2_decode_self_heals.2.2.1 (Json.arr [Json.num 3])
      (fun _ hh => Json.noConfusion hh)).1,
   claim_C2_decode_self_heals.2.2.2.1 [("wrong_list".toList, Json.num 5)]
      (fun xs hh => by
        have h2 : Json.num 5 = Json.arr xs := Option.some.inj hh
        exact Json.noConfusion h2),
   claim_C2_decode_self_heals.2.2.2.2 []
      (fun _ hh => Option.noConfusion hh)⟩

/-! ### C3 -/

theorem applyAnswer_logs (card : Card) (rest : List Card) (cid ua ca date : List Char)
    (v : Json) (fb : Option Json) (sess : Sess) (storage : Storage) :
    (applyAnswer card rest cid ua ca date v fb sess storage).2.logs
      = appendLogCap storage.logs
          (Json.obj [("date".toList, Json.str date),
                     ("cat".toList, Json.str card.category),
                     ("correct".toList, v)]) := by
  cases hc : jsonTruthy v with
  | false =>
    simp only [applyAnswer, appendLogCap, hc, Bool.false_eq_true, if_false]
    split <;> rfl
  | true =>
    simp only [applyAnswer, appendLogCap, hc, if_true]
    split <;> rfl

/-- C3: the activity log never exceeds 100 entries on the write path: the
decoder caps on read, and each answer() write appends exactly one entry and
keeps the last 100.  Any sequence of such capped appends equals a single cap of
the full history (capping is idempotent under repeated writes) and what is kept
is a suffix — the most recent entries — of that history. -/
theorem claim_C3_log_cap_bound :
    (∀ raw, (getLogs (get_storage raw)).length ≤ 100) ∧
    (∀ (init es : List Json), init.length ≤ 100 →
      List.foldl appendLogCap init es = (init ++ es).rtake 100 ∧
      (List.foldl appendLogCap init es).length ≤ 100 ∧
      List.foldl appendLogCap init es <:+ init ++ es) ∧
    (∀ useAI call parse card_id raw_user date sess storage s' st',
      answer useAI call parse card_id raw_user date sess storage = some (s', st') →
      st'.logs.length ≤ 100 ∧ ∃ e, st'.logs = appendLogCap storage.logs e) := by
  refine ⟨?_, ?_, ?_⟩
  · intro raw
    exact getLogs_capLogs_le _
  · intro init es hlen
    have h1 : List.foldl appendLogCap init es = (init ++ es).rtake 100 := by
      calc List.foldl appendLogCap init es
          = List.foldl appendLogCap (init.rtake 100) es := by rw [rtake_of_length_le hlen]
        _ = (init ++ es).rtake 100 := foldl_appendLogCap es init
    refine ⟨h1, ?_, ?_⟩
    · rw [h1]
      exact rtake_length_le _ 100
    · rw [h1]
      exact rtake_isSuffix _ 100
  · intro useAI call parse card_id raw_user date sess storage s' st' h
    unfold answer at h
    cases hq : sess.quiz_queue with
    | nil =>
      rw [hq] at h
      exact Option.noConfusion h
    | cons card rest =>
      rw [hq] at h
      rw [Option.map_eq_some'] at h
      obtain ⟨p, hp, hf⟩ := h
      have h2 : (applyAnswer card rest card_id (pyClean raw_user) (pyClean card.back) date
          p.1 p.2 sess storage).2 = st' := congrArg Prod.snd hf
      have hlogs := applyAnswer_logs card rest card_id (pyClean raw_user) (pyClean card.back)
        date p.1 p.2 sess storage
      rw [h2] at hlogs
      refine ⟨?_, ⟨_, hlogs⟩⟩
      rw [hlogs]
      exact rtake_length_le _ 100

/-- C3 witness: a concrete over-long cookie log is capped on read, and three
capped appends from a two-entry log keep it within bound. -/
theorem claim_C3_log_cap_bound_witness :
    (getLogs (get_storage none)).length ≤ 100 ∧
    (List.foldl appendLogCap [Json.num 1, Json.num 2]
        [Json.num 3, Json.num 4, Json.num 5]).length ≤ 100 := by
  refine ⟨claim_C3_log_cap_bound.1 none, ?_⟩
  exact (claim_C3_log_cap_bound.2.1 [Json.num 1, Json.num 2]
    [Json.num 3, Json.num 4, Json.num 5] (by simp)).2.1

/-! ### C4 -/

/-- C4 counterexample: the claim states score_percent = round(correct/total*100)
and that 2 correct of 3 yields 67; the code computes int((2/3)*100) = 66, which
differs from round((2/3)*100) = 67. -/
theorem claim_C4_counterexample :
    show_result_score 2 3 = 66 ∧ spec_round_percent 2 3 = 67 ∧
      (show_result_score 2 3 : ℤ) ≠ spec_round_percent 2 3 := by
  have h : spec_round_percent 2 3 = 67 := by
    unfold spec_round_percent
    norm_num [round_eq]
  refine ⟨rfl, h, ?_⟩
  rw [h]
  decide

/-- C4 (amended): finish() computes score_percent by Python int() truncation,
i.e. the floor of correct_count/total*100 (not round), and returns 0 when
total = 0; in particular 2 correct of 3 yields 66. -/
theorem claim_C4_score_truncation : ∀ c t : Nat,
    (t ≠ 0 → (show_result_score c t : ℤ) = ⌊((c : ℚ) / (t : ℚ)) * 100⌋) ∧
    (t = 0 → show_result_score c t = 0) := by
  intro c t
  constructor
  · intro ht
    unfold show_result_score
    rw [if_pos (Nat.pos_of_ne_zero ht)]
    have h1 : ((c : ℚ) / (t : ℚ)) * 100 = (((c * 100 : ℕ) : ℤ) : ℚ) / ((t : ℕ) : ℚ) := by
      push_cast
      ring
    rw [h1, Rat.floor_intCast_div_natCast]
    push_cast
    rfl
  · intro ht
    subst ht
    rfl

/-- C4 witness: the amended formula evaluated at total 3 with 2 correct and at
an empty session. -/
theorem claim_C4_score_truncation_witness :
    (show_result_score 2 3 : ℤ) = ⌊((2 : ℚ) / (3 : ℚ)) * 100⌋ ∧ show_result_score 1 0 = 0 :=
  ⟨(claim_C4_score_truncation 2 3).1 (by decide), (claim_C4_score_truncation 1 0).2 rfl⟩

/-! ### C5 -/

/-- C5: in the exact-match modes the verdict is correct exactly when the
submitted and canonical answers are literally equal after trimming surrounding
whitespace and removing line-break characters from both (the spec-side
normalization deletes the line breaks first and then trims; it coincides with
the code's strip-then-delete order), together with the spec's three examples. -/
theorem claim_C5_exact_match :
    (∀ u c : List Char, exact_match u c = true ↔ spec_normalize u = spec_normalize c) ∧
    exact_match "42".toList "42".toList = true ∧
    exact_match " 42\n".toList "42".toList = true ∧
    exact_match "42".toList "43".toList = false := by
  refine ⟨?_, by decide, by decide, by decide⟩
  intro u c
  unfold exact_match
  rw [pyClean_eq_spec_normalize, pyClean_eq_spec_normalize]
  exact decide_eq_true_iff

/-! ### C7 -/

/-- C7: start_study with a non-empty filtered pool always creates a session
whose queue holds min(count, pool size) questions — never an error when the
pool is smaller than the request — with total equal to the queue length; with
an empty filtered pool no session is created and control returns home. -/
theorem claim_C7_start_study_pool :
    ∀ (all_q shuffled : List Card) (q_count : Nat) (r : Bool),
      shuffled.Perm all_q →
      (all_q ≠ [] → ∃ s, start_study all_q shuffled q_count r = some s ∧
        s.quiz_queue.length = min q_count all_q.length ∧
        s.total_in_session = s.quiz_queue.length) ∧
      (all_q = [] → start_study all_q shuffled q_count r = none) := by
  intro all_q shuffled q_count r hperm
  constructor
  · intro hne
    have hE : all_q.isEmpty = false := by
      cases all_q with
      | nil => exact absurd rfl hne
      | cons a l => rfl
    unfold start_study
    rw [hE]
    refine ⟨_, rfl, ?_, rfl⟩
    simp [hperm.length_eq]
  · intro he
    subst he
    rfl

/-- C7 witness: requesting 10 questions from a pool of exactly 1 yields a
session of total 1. -/
theorem claim_C7_start_study_pool_witness :
    ∃ s, start_study [sampleCard] [sampleCard] 10 false = some s ∧
      s.quiz_queue.length = min 10 [sampleCard].length ∧
      s.total_in_session = s.quiz_queue.length :=
  (claim_C7_start_study_pool [sampleCard] [sampleCard] 10 false (List.Perm.refl _)).1
    (by simp)

/-! ### Helper lemmas: the wrong_list update of answer() -/

theorem answer_cons (useAI : Bool) (call : Except Unit (List Char))
    (parse : List Char → Option Json) (cid raw date : List Char) (card : Card)
    (rest : List Card) (sess : Sess) (storage : Storage)
    (hq : sess.quiz_queue = card :: rest) :
    answer useAI call parse cid raw date sess storage
      = (computeVerdict useAI call parse card (pyClean raw)).map
          (fun p => applyAnswer card rest cid (pyClean raw) (pyClean card.back) date
            p.1 p.2 sess storage) := by
  unfold answer
  rw [hq]

theorem applyAnswer_wrong_list (card : Card) (rest : List Card) (cid ua ca date : List Char)
    (v : Json) (fb : Option Json) (sess : Sess) (storage : Storage) :
    (applyAnswer card rest cid ua ca date v fb sess storage).2.wrong_list =
      if jsonTruthy v = true then
        (if (sess.is_review_mode && inWrongList storage.wrong_list cid) = true
          then storage.wrong_list.filter (fun j => !(jsonIsStr j cid))
          else storage.wrong_list)
      else
        (if inWrongList storage.wrong_list cid = true then storage.wrong_list
          else storage.wrong_list ++ [Json.str cid]) := by
  cases hc : jsonTruthy v with
  | false =>
    simp only [applyAnswer, hc, Bool.false_eq_true, if_false]
    split
    next h => rfl
    next h => rfl
  | true =>
    simp only [applyAnswer, hc, if_true]
    split
    next h => rfl
    next h => rfl

theorem inWrongList_filter_self (wl : List Json) (cid : List Char) :
    inWrongList (wl.filter (fun j => !(jsonIsStr j cid))) cid = false := by
  induction wl with
  | nil => rfl
  | cons j rest ih =>
    unfold inWrongList at ih ⊢
    cases hj : jsonIsStr j cid with
    | true => simp [List.filter_cons, hj, ih]
    | false => simp [List.filter_cons, hj, ih]

theorem inWrongList_append_self (wl : List Json) (cid : List Char) :
    inWrongList (wl ++ [Json.str cid]) cid = true := by
  unfold inWrongList
  simp [List.any_append, List.any_cons, jsonIsStr]

/-! ### C1 -/

/-- C1 counterexample: in normal (non-review) mode a correct answer does NOT
remove the id from the missed list.  The question f_x_0 is on the missed list,
the submitted answer "A" is judged correct (correct_count becomes 1), yet
wrong_list still contains f_x_0 — contradicting removal "regardless of mode". -/
theorem claim_C1_counterexample :
    (answer false (Except.error ()) (fun _ => none) "f_x_0".toList "A".toList
        "10/12".toList sessC1 storageC1).map (fun r => (r.1.correct_count, r.2.wrong_list))
      = some (1, [Json.str "f_x_0".toList]) := rfl

/-- C1 (amended): for every answered question, an incorrect verdict adds the
path id to the missed list unless already present (so repeated incorrect
answers create no duplicate) regardless of study mode, while a correct verdict
removes the id only in review mode — in normal mode the list is left unchanged.
An incorrect verdict is characterized by the combo reset to 0, a correct one by
the combo increment. -/
theorem claim_C1_missed_list_mode_gated :
    ∀ useAI call parse card_id raw_user date sess storage s' st',
      answer useAI call parse card_id raw_user date sess storage = some (s', st') →
      (s'.combo = 0 →
        (inWrongList storage.wrong_list card_id = true → st'.wrong_list = storage.wrong_list) ∧
        (inWrongList storage.wrong_list card_id = false →
          st'.wrong_list = storage.wrong_list ++ [Json.str card_id])) ∧
      (s'.combo = sess.combo + 1 →
        (sess.is_review_mode = true → inWrongList st'.wrong_list card_id = false) ∧
        (sess.is_review_mode = false → st'.wrong_list = storage.wrong_list)) := by
  intro useAI call parse card_id raw_user date sess storage s' st' h
  unfold answer at h
  cases hq : sess.quiz_queue with
  | nil =>
    rw [hq] at h
    exact Option.noConfusion h
  | cons card rest =>
    rw [hq, Option.map_eq_some'] at h
    obtain ⟨p, hp, hf⟩ := h
    have hs : (applyAnswer card rest card_id (pyClean raw_user) (pyClean card.back) date
        p.1 p.2 sess storage).1 = s' := congrArg Prod.fst hf
    have hst : (applyAnswer card rest card_id (pyClean raw_user) (pyClean card.back) date
        p.1 p.2 sess storage).2 = st' := congrArg Prod.snd hf
    have hcombo : s'.combo = if jsonTruthy p.1 = true then sess.combo + 1 else 0 := by
      rw [← hs]
      rfl
    have hwl := applyAnswer_wrong_list card rest card_id (pyClean raw_user)
      (pyClean card.back) date p.1 p.2 sess storage
    rw [hst] at hwl
    constructor
    · intro hzero
      have hfalse : jsonTruthy p.1 = false := by
        cases hcc : jsonTruthy p.1 with
        | false => rfl
        | true =>
          rw [hcc] at hcombo
          simp at hcombo
          omega
      rw [hfalse] at hwl
      simp only [Bool.false_eq_true, if_false] at hwl
      constructor
      · intro hin
        rw [hwl, if_pos hin]
      · intro hin
        rw [hwl, if_neg (by simp [hin])]
    · intro hsucc
      have htrue : jsonTruthy p.1 = true := by
        cases hcc : jsonTruthy p.1 with
        | true => rfl
        | false =>
          rw [hcc] at hcombo
          simp at hcombo
          rw [hcombo] at hsucc
          omega
      rw [htrue, if_pos rfl] at hwl
      constructor
      · intro hr
        rw [hr, Bool.true_and] at hwl
        cases hin : inWrongList storage.wrong_list card_id with
        | true =>
          rw [hin, if_pos rfl] at hwl
          rw [hwl]
          exact inWrongList_filter_self _ _
        | false =>
          rw [hin] at hwl
          simp only [Bool.false_eq_true, if_false] at hwl
          rw [hwl]
          exact hin
      · intro hr
        rw [hr, Bool.false_and] at hwl
        simp only [Bool.false_eq_true, if_false] at hwl
        exact hwl

/-- C1 witness: an incorrect answer to f_x_0 with an empty missed list appends
the id to the list. -/
theorem claim_C1_missed_list_mode_gated_witness :
    (answer false (Except.error ()) (fun _ => none) "f_x_0".toList "B".toList
        "10/12".toList sessW storageW).map (fun r => r.2.wrong_list)
      = some (storageW.wrong_list ++ [Json.str "f_x_0".toList]) := by
  have h := ((claim_C1_missed_list_mode_gated false (Except.error ()) (fun _ => none)
    "f_x_0".toList "B".toList "10/12".toList sessW storageW _ _ rfl).1 rfl).2 rfl
  exact congrArg some h

/-! ### C10 -/

/-- C10: grading — the verdict, the strategy dispatch on the question format,
and the counters and log entry it drives — is computed from the question at the
head of the session queue, never from the question id in the request path; the
path id is used only for the missed-list bookkeeping, so a mismatched path id
records an id that was not the question actually graded.  Conjunct 1: the whole
session outcome and log are invariant under changing the path id.  Conjunct 2:
on an incorrect verdict the recorded id is the path id. -/
theorem claim_C10_grading_uses_queue_head :
    ∀ useAI call parse cid cid' raw_user date sess storage,
      ((answer useAI call parse cid raw_user date sess storage).map
          (fun r => (r.1, r.2.logs))
        = (answer useAI call parse cid' raw_user date sess storage).map
          (fun r => (r.1, r.2.logs))) ∧
      (∀ s' st', answer useAI call parse cid raw_user date sess storage = some (s', st') →
        s'.combo = 0 → inWrongList st'.wrong_list cid = true) := by
  intro useAI call parse cid cid' raw_user date sess storage
  constructor
  · cases hq : sess.quiz_queue with
    | nil =>
      unfold answer
      rw [hq]
    | cons card rest =>
      rw [answer_cons useAI call parse cid raw_user date card rest sess storage hq,
          answer_cons useAI call parse cid' raw_user date card rest sess storage hq]
      cases hcv : computeVerdict useAI call parse card (pyClean raw_user) with
      | none => rfl
      | some p =>
        simp only [Option.map_some']
        refine congrArg some (Prod.ext ?_ ?_)
        · rfl
        · rw [applyAnswer_logs, applyAnswer_logs]
  · intro s' st' h hzero
    unfold answer at h
    cases hq : sess.quiz_queue with
    | nil =>
      rw [hq] at h
      exact Option.noConfusion h
    | cons card rest =>
      rw [hq, Option.map_eq_some'] at h
      obtain ⟨p, hp, hf⟩ := h
      have hs : (applyAnswer card rest cid (pyClean raw_user) (pyClean card.back) date
          p.1 p.2 sess storage).1 = s' := congrArg Prod.fst hf
      have hst : (applyAnswer card rest cid (pyClean raw_user) (pyClean card.back) date
          p.1 p.2 sess storage).2 = st' := congrArg Prod.snd hf
      have hcombo : s'.combo = if jsonTruthy p.1 = true then sess.combo + 1 else 0 := by
        rw [← hs]
        rfl
      have hfalse : jsonTruthy p.1 = false := by
        cases hcc : jsonTruthy p.1 with
        | false => rfl
        | true =>
          rw [hcc] at hcombo
          simp at hcombo
          omega
      have hwl := applyAnswer_wrong_list card rest cid (pyClean raw_user)
        (pyClean card.back) date p.1 p.2 sess storage
      rw [hst, hfalse] at hwl
      simp only [Bool.false_eq_true, if_false] at hwl
      cases hin : inWrongList storage.wrong_list cid with
      | true =>
        rw [hin, if_pos rfl] at hwl
        rw [hwl]
        exact hin
      | false =>
        rw [hin] at hwl
        simp only [Bool.false_eq_true, if_false] at hwl
        rw [hwl]
        exact inWrongList_append_self _ _

/-- C10 witness: with the path id o_y_9 differing from the graded head question
f_x_0, an incorrect answer records o_y_9 — not the graded question's id — on
the missed list. -/
theorem claim_C10_grading_uses_queue_head_witness :
    inWrongList (storageW.wrong_list ++ [Json.str "o_y_9".toList]) "o_y_9".toList = true := by
  have h := (claim_C10_grading_uses_queue_head false (Except.error ()) (fun _ => none)
    "o_y_9".toList "f_x_0".toList "B".toList "10/12".toList sessW storageW).2 _ _ rfl rfl
  exact h

/-! ### C6 -/

/-- C6 counterexample: the claim states score = round(similarity * 100).  For
a 20-character submission over the alphabet ab against the canonical answer
abc, the similarity is 2/3; the code computes int(2/3 * 100) = 66 while the
claimed rounding gives 67. -/
theorem claim_C6_counterexample :
    ((charSet "abababababababababab".toList ∩ charSet "abc".toList).card = 2 ∧
      (charSet "abc".toList).card = 3) ∧
    getField (evaluate_essay_simple "abababababababababab".toList "abc".toList) "score".toList
      = some (Json.num 66) ∧
    spec_round_percent 2 3 = 67 ∧ (66 : ℤ) ≠ 67 := by
  refine ⟨⟨by decide, by decide⟩, rfl, ?_, by decide⟩
  unfold spec_round_percent
  norm_num [round_eq]

/-- C6 (amended): the heuristic essay grader returns score 0 and incorrect for
every submission whose trimmed length is under 20 characters; otherwise the
score is the floor (Python int truncation, not round) of 100 times the ratio
of distinct shared lower-cased characters to distinct characters of the
canonical answer (0 when the canonical answer has no characters), the verdict
is correct iff score >= 60, and a submission identical to the canonical answer
scores 100 and is correct. -/
theorem claim_C6_heuristic_floor :
    ∀ u m : List Char,
      ((u = [] ∨ (pyStrip u).length < 20) →
        getField (evaluate_essay_simple u m) "score".toList = some (Json.num 0) ∧
        getField (evaluate_essay_simple u m) "is_correct".toList = some (Json.bool false)) ∧
      (¬(u = [] ∨ (pyStrip u).length < 20) →
        getField (evaluate_essay_simple u m) "score".toList
          = some (Json.num (simple_score u m)) ∧
        getField (evaluate_essay_simple u m) "is_correct".toList
          = some (Json.bool (decide (simple_score u m ≥ 60))) ∧
        ((charSet m).card ≠ 0 →
          (simple_score u m : ℤ)
            = ⌊(((charSet u ∩ charSet m).card : ℚ) / ((charSet m).card : ℚ)) * 100⌋) ∧
        ((charSet m).card = 0 → simple_score u m = 0)) ∧
      (¬(u = [] ∨ (pyStrip u).length < 20) → u = m →
        getField (evaluate_essay_simple u m) "score".toList = some (Json.num 100) ∧
        getField (evaluate_essay_simple u m) "is_correct".toList = some (Json.bool true)) := by
  intro u m
  by_cases hshort : u = [] ∨ (pyStrip u).length < 20
  · refine ⟨fun _ => ?_, fun hn => absurd hshort hn, fun hn _ => absurd hshort hn⟩
    unfold evaluate_essay_simple
    rw [if_pos hshort]
    exact ⟨rfl, rfl⟩
  · have h1 : getField (evaluate_essay_simple u m) "score".toList
        = some (Json.num (simple_score u m)) := by
      unfold evaluate_essay_simple
      rw [if_neg hshort]
      rfl
    have h2 : getField (evaluate_essay_simple u m) "is_correct".toList
        = some (Json.bool (decide (simple_score u m ≥ 60))) := by
      unfold evaluate_essay_simple
      rw [if_neg hshort]
      rfl
    refine ⟨fun hn => absurd hn hshort, fun _ => ⟨h1, h2, ?_, ?_⟩, fun _ hum => ?_⟩
    · intro hden
      unfold simple_score
      rw [if_neg hden]
      have hcast : (((charSet u ∩ charSet m).card : ℚ) / ((charSet m).card : ℚ)) * 100
          = (((100 * (charSet u ∩ charSet m).card : ℕ) : ℤ) : ℚ)
              / (((charSet m).card : ℕ) : ℚ) := by
        push_cast
        ring
      rw [hcast, Rat.floor_intCast_div_natCast]
      push_cast
      rfl
    · intro hden
      unfold simple_score
      rw [if_pos hden]
    · subst hum
      have hne : u ≠ [] := fun he => hshort (Or.inl he)
      have hcard : (charSet u).card ≠ 0 := by
        unfold charSet
        cases u with
        | nil => exact absurd rfl hne
        | cons ch t =>
          have hmem : Char.toLower ch ∈ (List.map Char.toLower (ch :: t)).toFinset := by
            simp
          have hpos := Finset.card_pos.mpr ⟨_, hmem⟩
          omega
      have hs100 : simple_score u u = 100 := by
        unfold simple_score
        rw [if_neg hcard, Finset.inter_self,
          Nat.mul_div_cancel 100 (Nat.pos_of_ne_zero hcard)]
      rw [hs100] at h1 h2
      exact ⟨h1, by simpa using h2⟩

/-- C6 witness: a 20-character submission identical to the canonical answer
scores 100 and is correct; a 2-character submission scores 0. -/
theorem claim_C6_heuristic_floor_witness :
    (getField (evaluate_essay_simple "abcdefghijklmnopqrst".toList
        "abcdefghijklmnopqrst".toList) "score".toList = some (Json.num 100) ∧
      getField (evaluate_essay_simple "abcdefghijklmnopqrst".toList
        "abcdefghijklmnopqrst".toList) "is_correct".toList = some (Json.bool true)) ∧
    getField (evaluate_essay_simple "hi".toList "abc".toList) "score".toList
      = some (Json.num 0) :=
  ⟨(claim_C6_heuristic_floor "abcdefghijklmnopqrst".toList
      "abcdefghijklmnopqrst".toList).2.2 (by decide) rfl,
   ((claim_C6_heuristic_floor "hi".toList "abc".toList).1 (by decide)).1⟩

/-! ### C8 -/

/-- C8 counterexample: the claim that the canonical answer appears exactly once
fails when the canonical answer is itself one of the synthetic placeholder
strings: with canonical answer 選択肢_2 and the single (non-empty, distinct)
distractor x, padding appends 選択肢_2 again, so the canonical answer appears
twice among the 4 choices. -/
theorem claim_C8_counterexample :
    ("x".toList ≠ [] ∧ "x".toList ≠ "選択肢_2".toList) ∧
    (buildChoices "選択肢_2".toList ["x".toList]).length = 4 ∧
    (buildChoices "選択肢_2".toList ["x".toList]).count "選択肢_2".toList = 2 := by
  exact ⟨⟨by decide, by decide⟩, rfl, by decide⟩

/-- C8 (amended): load-time distractors are non-empty and differ from the
canonical answer; and for a fill question with exactly one supplied distractor
the displayed choice set (any shuffle of canonical + distractor + placeholder
padding) holds exactly 4 entries, with the canonical answer present exactly
once provided the canonical answer is not itself one of the two synthetic
placeholder strings 選択肢_2 / 選択肢_3. -/
theorem count_perm_eq {α : Type} [BEq α] {l₁ l₂ : List α} (h : l₁.Perm l₂) (a : α) :
    l₁.count a = l₂.count a := by
  induction h with
  | nil => rfl
  | cons x _ ih => simp [List.count_cons, ih]
  | swap x y l => simp [List.count_cons]; omega
  | trans _ _ ih₁ ih₂ => exact ih₁.trans ih₂

theorem claim_C8_choice_set :
    (∀ row d, d ∈ load_dummies row → d ≠ [] ∧ d ≠ row.getD 2 []) ∧
    (∀ (back d : List Char) (shuffled : List (List Char)),
      back = pyClean back → d = pyClean d → d ≠ [] → d ≠ back →
      back ≠ placeholder 2 → back ≠ placeholder 3 →
      shuffled.Perm (buildChoices back [d]) →
      shuffled.length = 4 ∧ shuffled.count back = 1) := by
  constructor
  · intro row d hd
    unfold load_dummies at hd
    rw [List.mem_filter] at hd
    have h2 := hd.2
    simp only [Bool.and_eq_true, decide_eq_true_eq] at h2
    exact h2
  · intro back d shuffled hb hd hdne hdb hbp2 hbp3 hperm
    have hsb : pyStrip back = back := by
      calc pyStrip back = pyStrip (pyClean back) := by rw [← hb]
        _ = pyClean back := pyStrip_pyClean back
        _ = back := hb.symm
    have hsd : pyStrip d = d := by
      calc pyStrip d = pyStrip (pyClean d) := by rw [← hd]
        _ = pyClean d := pyStrip_pyClean d
        _ = d := hd.symm
    have hbc : buildChoices back [d] = [back, d, placeholder 2, placeholder 3] := by
      unfold buildChoices
      simp only [List.map_cons, List.map_nil]
      rw [hsb, hsd]
      rfl
    constructor
    · rw [hperm.length_eq, hbc]
      rfl
    · rw [count_perm_eq hperm back, hbc]
      simp [List.count_cons, Ne.symm hdb, hbp2, hbp3]

/-- C8 witness: canonical answer abc with the single distractor x yields 4
choices with abc present exactly once. -/
theorem claim_C8_choice_set_witness :
    (buildChoices "abc".toList ["x".toList]).length = 4 ∧
    (buildChoices "abc".toList ["x".toList]).count "abc".toList = 1 :=
  claim_C8_choice_set.2 "abc".toList "x".toList (buildChoices "abc".toList ["x".toList])
    (by decide) (by decide) (by decide) (by decide) (by decide) (by decide)
    (List.Perm.refl _)

/-! ### C9 -/

/-- C9 counterexample: the claim that the evaluator always returns a verdict
object containing is_correct, score and feedback fails when the AI reply
parses as JSON but lacks those fields: the parsed value is returned as-is.
Here the reply parses to the empty object, which has none of the fields. -/
theorem claim_C9_counterexample :
    evaluate_essay_with_ai true (Except.ok "x".toList) (fun _ => some (Json.obj []))
        "q".toList "m".toList "u".toList "n".toList = Json.obj [] ∧
    hasVerdictFields (Json.obj []) = false :=
  ⟨rfl, rfl⟩

/-- C9 (amended): the essay evaluator is a total function (it never raises):
with no grading credential it returns the heuristic verdict; a transport
failure or a reply whose fence-unwrapped, stripped text fails JSON parsing
falls back to the heuristic verdict, which always carries is_correct, score
and feedback; but a reply that parses as JSON is returned as-is, even when it
lacks those fields. -/
theorem claim_C9_ai_grader_fallback :
    (∀ call parse q m u n,
      evaluate_essay_with_ai false call parse q m u n = evaluate_essay_simple u m) ∧
    (∀ parse q m u n (e : Unit),
      evaluate_essay_with_ai true (Except.error e) parse q m u n
        = evaluate_essay_simple u m) ∧
    (∀ parse q m u n txt, parse (pyStrip (extractFenced txt)) = none →
      evaluate_essay_with_ai true (Except.ok txt) parse q m u n
        = evaluate_essay_simple u m) ∧
    (∀ parse q m u n txt j, parse (pyStrip (extractFenced txt)) = some j →
      evaluate_essay_with_ai true (Except.ok txt) parse q m u n = j) ∧
    (∀ u m, hasVerdictFields (evaluate_essay_simple u m) = true) := by
  refine ⟨fun call parse q m u n => rfl, fun parse q m u n e => rfl, ?_, ?_, ?_⟩
  · intro parse q m u n txt h
    show (match parse (pyStrip (extractFenced txt)) with
          | none => evaluate_essay_simple u m
          | some j => j) = evaluate_essay_simple u m
    rw [h]
  · intro parse q m u n txt j h
    show (match parse (pyStrip (extractFenced txt)) with
          | none => evaluate_essay_simple u m
          | some j => j) = j
    rw [h]
  · intro u m
    unfold evaluate_essay_simple
    split
    · rfl
    · rfl

/-- C9 witness: a reply parsing to JSON null is returned as-is; a reply whose
text fails parsing yields the heuristic verdict. -/
theorem claim_C9_ai_grader_fallback_witness :
    evaluate_essay_with_ai true (Except.ok "x".toList) (fun _ => some Json.null)
        "q".toList "m".toList "u".toList "n".toList = Json.null ∧
    evaluate_essay_with_ai true (Except.ok "y".toList) (fun _ => none)
        "q".toList "m".toList "u".toList "n".toList
      = evaluate_essay_simple "u".toList "m".toList :=
  ⟨claim_C9_ai_grader_fallback.2.2.2.1 (fun _ => some Json.null) "q".toList "m".toList
      "u".toList "n".toList "x".toList Json.null rfl,
   claim_C9_ai_grader_fallback.2.2.1 (fun _ => none) "q".toList "m".toList
      "u".toList "n".toList "y".toList rfl⟩

end Denken
